import Mathlib

/-!
# Verification of the GDMC `Advanced.py` terrain-analysis engine

A shallow embedding of the chunkwise terrain classification and
connected-region (flood-fill) discovery engine of `Advanced.py`:

* Python string/list primitives (`pyIn`, `pyTail`, `pyTake`, `pyIdx`)
  mirroring `needle in hay`, `s[-n:]`, `s[:n]` and Python list indexing
  with negative wrap-around;
* the flood-fill region detector `flood_search_3D` (modelled from the
  spec: the function lives in `gdpc.toolbox`, outside the analysed file);
* the heightmap refiner `calculateTreelessHeightmap`;
* the biome classifier `chunk_biome_analysis`;
* the `__main__` per-chunk structure/water sample pass with its
  water-body merger state (`to_avoid`, `waterways`, `waterbody_info`).

Machine integers do not overflow here (Python ints), so coordinates are
`Int` and sizes are `Nat`.
-/

/-! ## Python primitives -/

/-- `startsList n h` is true when `n` is an initial segment of `h`. -/
def startsList : List Char → List Char → Bool
  | [], _ => true
  | _ :: _, [] => false
  | a :: as, b :: bs => a = b && startsList as bs

/-- `subList n h` is true when `n` occurs contiguously inside `h`
(Python's `n in h` for strings). -/
def subList (n : List Char) : List Char → Bool
  | [] => startsList n []
  | c :: t => startsList n (c :: t) || subList n t

/-- Python `needle in hay` on strings. -/
def pyIn (needle hay : String) : Bool :=
  subList needle.data hay.data

/-- Python `s[-n:]`: the last `n` characters, the whole string when
`n ≥ len(s)` (Nat truncated subtraction models Python's clamping). -/
def pyTail (n : Nat) (s : String) : String :=
  String.mk (s.data.drop (s.data.length - n))

/-- Python `s[:n]`: the first `n` characters. -/
def pyTake (n : Nat) (s : String) : String :=
  String.mk (s.data.take n)

/-- Python list indexing `l[i]` with negative wrap-around; `none` models
an `IndexError`. -/
def pyIdx (l : List α) (i : Int) : Option α :=
  if 0 ≤ i ∧ i < l.length then l.get? i.toNat
  else if -(l.length : Int) ≤ i ∧ i < 0 then l.get? (l.length + i).toNat
  else none

/-- Modify the element at position `i` of a list (Python in-place update
of `l[i]`; out-of-range indices leave the list unchanged, which the
callers below never rely on). -/
def listModify (f : α → α) : Nat → List α → List α
  | _, [] => []
  | 0, a :: t => f a :: t
  | i + 1, a :: t => a :: listModify f i t

/-! ## 3D coordinates, boxes and neighbourhoods -/

/-- A 3D block coordinate, as the Python tuple `(x, y, z)`. -/
abbrev P3 : Type := Int × Int × Int

/-- The inclusive bound box handed to `flood_search_3D` as
`(x1, y1, z1, x2, y2, z2)`. -/
structure Box where
  x1 : Int
  y1 : Int
  z1 : Int
  x2 : Int
  y2 : Int
  z2 : Int
deriving DecidableEq

/-- Membership in the inclusive bound box. -/
def Box.contains (b : Box) (p : P3) : Bool :=
  b.x1 ≤ p.1 && p.1 ≤ b.x2 && b.y1 ≤ p.2.1 && p.2.1 ≤ b.y2 &&
    b.z1 ≤ p.2.2 && p.2.2 ≤ b.z2

/-- The box as a finite set of coordinates. -/
def Box.finset (b : Box) : Finset P3 :=
  Finset.Icc b.x1 b.x2 ×ˢ (Finset.Icc b.y1 b.y2 ×ˢ Finset.Icc b.z1 b.z2)

/-- The number of coordinates in the box, computed arithmetically. -/
def Box.volume (b : Box) : Nat :=
  (b.x2 + 1 - b.x1).toNat * ((b.y2 + 1 - b.y1).toNat * (b.z2 + 1 - b.z1).toNat)

theorem Box.mem_finset (b : Box) (p : P3) :
    p ∈ b.finset ↔ b.contains p = true := by
  obtain ⟨x, y, z⟩ := p
  simp [Box.finset, Box.contains, Finset.mem_product, and_assoc]

theorem Box.card_finset (b : Box) : b.finset.card = b.volume := by
  simp [Box.finset, Box.volume, Finset.card_product, Int.card_Icc]

/-- The 6 face-adjacent offsets. -/
def faceOffsets : List P3 :=
  [(1, 0, 0), (-1, 0, 0), (0, 1, 0), (0, -1, 0), (0, 0, 1), (0, 0, -1)]

/-- The 26 offsets of the 3×3×3 cube around the origin. -/
def cubeOffsets : List P3 :=
  ([-1, 0, 1].flatMap fun dx => [-1, 0, 1].flatMap fun dy =>
    [-1, 0, 1].map fun dz => ((dx : Int), (dy : Int), (dz : Int))).filter
    (fun d => d ≠ ((0 : Int), (0 : Int), (0 : Int)))

/-- Neighbour expansion: 6-connectivity by default, 26-connectivity when
`diagonal` is true. -/
def neighbors (diagonal : Bool) (p : P3) : List P3 :=
  (if diagonal then cubeOffsets else faceOffsets).map
    fun d => (p.1 + d.1, p.2.1 + d.2.1, p.2.2 + d.2.2)

theorem length_neighbors_le (diagonal : Bool) (p : P3) :
    (neighbors diagonal p).length ≤ 26 := by
  cases diagonal <;> simp [neighbors, faceOffsets, cubeOffsets]

/-! ## The flood-fill region detector

Modelled from the spec: `flood_search_3D` is defined in `gdpc.toolbox`,
which is not part of the analysed source file; §4.3 of the spec gives its
contract.  It explores outward from the seed, visiting only coordinates
inside the inclusive bound box whose block value lies in the category and
which are not already observed, marking each visited coordinate observed
before expanding its neighbours, and returns the connected region found
together with the coordinates newly added to `observed`. -/

/-- The static per-cell admission test: inside the box and of the right
block category. -/
def cellOK (getBlock : P3 → String) (category : List String) (box : Box)
    (p : P3) : Bool :=
  box.contains p && getBlock p ∈ category

/-- The worklist loop of the detector: `visited` plays the role of the
growing `observed` accumulator.  Fuel-indexed so that the definition is
structurally recursive; `floodFuel` below always suffices. -/
def floodLoop (getBlock : P3 → String) (category : List String) (box : Box)
    (diagonal : Bool) : Nat → List P3 → List P3 → List P3
  | 0, _, visited => visited
  | _ + 1, [], visited => visited
  | fuel + 1, p :: rest, visited =>
    if p ∈ visited ∨ ¬ cellOK getBlock category box p then
      floodLoop getBlock category box diagonal fuel rest visited
    else
      floodLoop getBlock category box diagonal fuel
        (neighbors diagonal p ++ rest) (p :: visited)

/-- Enough fuel to exhaust the box: each loop step either drops a stack
entry or claims a fresh box cell while pushing at most 26 neighbours. -/
def floodFuel (box : Box) : Nat :=
  27 * box.volume + 1

/-- Modelled from the spec: `flood_search_3D(x, y, z, x1, y1, z1, x2, y2,
z2, category, observed, diagonal)` from `gdpc.toolbox` (not in the
analysed file).  Returns the pair `(region, newly_observed)`; per §4.3
the region found is exactly the set of coordinates newly marked observed
during this call, so the two components coincide. -/
def flood_search_3D (getBlock : P3 → String) (seed : P3) (box : Box)
    (category : List String) (observed : List P3) (diagonal : Bool) :
    List P3 × List P3 :=
  let final := floodLoop getBlock category box diagonal (floodFuel box)
    [seed] observed
  let newly := final.filter (fun p => p ∉ observed)
  (newly, newly)

/-- Reachability from the seed through admissible, initially-unobserved
cells under the chosen connectivity: the specification of the region the
detector must return. -/
inductive Reach (getBlock : P3 → String) (category : List String)
    (box : Box) (diagonal : Bool) (observed : List P3) (seed : P3) :
    P3 → Prop
  | base :
      cellOK getBlock category box seed = true → seed ∉ observed →
      Reach getBlock category box diagonal observed seed seed
  | step {p q : P3} :
      Reach getBlock category box diagonal observed seed p →
      q ∈ neighbors diagonal p →
      cellOK getBlock category box q = true → q ∉ observed →
      Reach getBlock category box diagonal observed seed q

/-! ### Flood-fill correctness -/

/-- The number of box cells not yet visited. -/
def unvisitedCount (box : Box) (visited : List P3) : Nat :=
  (box.finset.filter (fun q => q ∉ visited)).card

theorem unvisitedCount_cons_lt (box : Box) {p : P3} {visited : List P3}
    (hin : p ∈ box.finset) (hnv : p ∉ visited) :
    unvisitedCount box (p :: visited) < unvisitedCount box visited := by
  apply Finset.card_lt_card
  rw [Finset.ssubset_def]
  constructor
  · intro q hq
    simp only [Finset.mem_filter, List.mem_cons, not_or] at hq ⊢
    exact ⟨hq.1, hq.2.2⟩
  · intro hsub
    have hp : p ∈ box.finset.filter (fun q => q ∉ visited) := by
      simp [Finset.mem_filter, hin, hnv]
    have := hsub hp
    simp [Finset.mem_filter] at this

theorem unvisitedCount_le_volume (box : Box) (visited : List P3) :
    unvisitedCount box visited ≤ box.volume := by
  calc unvisitedCount box visited ≤ box.finset.card := Finset.card_filter_le _ _
    _ = box.volume := box.card_finset

theorem floodLoop_subset (gB : P3 → String) (cat : List String) (box : Box)
    (diag : Bool) :
    ∀ (fuel : Nat) (stack visited : List P3), ∀ q ∈ visited,
      q ∈ floodLoop gB cat box diag fuel stack visited := by
  intro fuel
  induction fuel with
  | zero => intro stack visited q hq; simpa [floodLoop] using hq
  | succ n ih =>
    intro stack visited q hq
    cases stack with
    | nil => simpa [floodLoop] using hq
    | cons p rest =>
      simp only [floodLoop]
      split
      · exact ih rest visited q hq
      · exact ih _ _ q (List.mem_cons_of_mem _ hq)

theorem floodLoop_mem_of_stack (gB : P3 → String) (cat : List String)
    (box : Box) (diag : Bool) :
    ∀ (fuel : Nat) (stack visited : List P3),
      27 * unvisitedCount box visited + stack.length ≤ fuel →
      ∀ p ∈ stack, cellOK gB cat box p = true →
      p ∈ floodLoop gB cat box diag fuel stack visited := by
  intro fuel
  induction fuel with
  | zero =>
    intro stack visited hsuff p hp _
    have : stack.length = 0 := by omega
    rw [List.length_eq_zero] at this
    subst this
    simp at hp
  | succ n ih =>
    intro stack visited hsuff p hp hok
    cases stack with
    | nil => simp at hp
    | cons q rest =>
      simp only [List.length_cons] at hsuff
      simp only [floodLoop]
      split
      · rename_i hskip
        rcases List.mem_cons.mp hp with rfl | hp'
        · have hqv : p ∈ visited := by
            rcases hskip with h | h
            · exact h
            · exact absurd hok h
          exact floodLoop_subset gB cat box diag n rest visited p hqv
        · exact ih rest visited (by omega) p hp' hok
      · rename_i hadd
        push_neg at hadd
        obtain ⟨hqnv, hqok⟩ := hadd
        rcases List.mem_cons.mp hp with rfl | hp'
        · exact floodLoop_subset gB cat box diag n _ _ p (List.mem_cons_self _ _)
        · have hqbox : q ∈ box.finset := by
            rw [Box.mem_finset]
            have := hqok
            unfold cellOK at this
            exact (Bool.and_eq_true _ _).mp this |>.1
          have hdec := unvisitedCount_cons_lt box hqbox hqnv
          have hnb := length_neighbors_le diag q
          refine ih _ _ ?_ p (List.mem_append_right _ hp') hok
          simp only [List.length_append]
          omega

theorem floodLoop_sound (gB : P3 → String) (cat : List String) (box : Box)
    (diag : Bool) (obs : List P3) (seed : P3) :
    ∀ (fuel : Nat) (stack visited : List P3),
      (∀ x ∈ obs, x ∈ visited) →
      (∀ x ∈ visited, x ∈ obs ∨ Reach gB cat box diag obs seed x) →
      (∀ x ∈ stack, cellOK gB cat box x = true → x ∉ obs →
        Reach gB cat box diag obs seed x) →
      ∀ c ∈ floodLoop gB cat box diag fuel stack visited,
        c ∈ obs ∨ Reach gB cat box diag obs seed c := by
  intro fuel
  induction fuel with
  | zero =>
    intro stack visited _ hvis _ c hc
    exact hvis c (by simpa [floodLoop] using hc)
  | succ n ih =>
    intro stack visited hobs hvis hstk c hc
    cases stack with
    | nil => exact hvis c (by simpa [floodLoop] using hc)
    | cons p rest =>
      simp only [floodLoop] at hc
      split at hc
      · exact ih rest visited hobs hvis
          (fun x hx => hstk x (List.mem_cons_of_mem _ hx)) c hc
      · rename_i hadd
        push_neg at hadd
        obtain ⟨hpnv, hpok⟩ := hadd
        have hpnobs : p ∉ obs := fun h => hpnv (hobs p h)
        have hreach : Reach gB cat box diag obs seed p :=
          hstk p (List.mem_cons_self _ _) hpok hpnobs
        refine ih _ _ ?_ ?_ ?_ c hc
        · exact fun x hx => List.mem_cons_of_mem _ (hobs x hx)
        · intro x hx
          rcases List.mem_cons.mp hx with rfl | hx'
          · exact Or.inr hreach
          · exact hvis x hx'
        · intro x hx hxok hxnobs
          rcases List.mem_append.mp hx with hx' | hx'
          · exact Reach.step hreach hx' hxok hxnobs
          · exact hstk x (List.mem_cons_of_mem _ hx') hxok hxnobs

theorem floodLoop_closed (gB : P3 → String) (cat : List String) (box : Box)
    (diag : Bool) :
    ∀ (fuel : Nat) (stack visited : List P3),
      27 * unvisitedCount box visited + stack.length ≤ fuel →
      ∀ c ∈ floodLoop gB cat box diag fuel stack visited, c ∉ visited →
      ∀ r ∈ neighbors diag c, cellOK gB cat box r = true →
      r ∈ floodLoop gB cat box diag fuel stack visited := by
  intro fuel
  induction fuel with
  | zero =>
    intro stack visited _ c hc hcnv
    exact absurd (by simpa [floodLoop] using hc) hcnv
  | succ n ih =>
    intro stack visited hsuff c hc hcnv r hr hrok
    cases stack with
    | nil => exact absurd (by simpa [floodLoop] using hc) hcnv
    | cons p rest =>
      simp only [List.length_cons] at hsuff
      simp only [floodLoop] at hc ⊢
      split at hc
      · rename_i hskip
        rw [if_pos hskip]
        exact ih rest visited (by omega) c hc hcnv r hr hrok
      · rename_i hadd
        rw [if_neg hadd]
        push_neg at hadd
        obtain ⟨hpnv, hpok⟩ := hadd
        have hpbox : p ∈ box.finset := by
          rw [Box.mem_finset]
          unfold cellOK at hpok
          exact (Bool.and_eq_true _ _).mp hpok |>.1
        have hdec := unvisitedCount_cons_lt box hpbox hpnv
        have hnb := length_neighbors_le diag p
        have hsuff' : 27 * unvisitedCount box (p :: visited) +
            (neighbors diag p ++ rest).length ≤ n := by
          simp only [List.length_append]
          omega
        by_cases hcp : c = p
        · subst hcp
          exact floodLoop_mem_of_stack gB cat box diag n _ _ hsuff' r
            (List.mem_append_left _ hr) hrok
        · have hcnv' : c ∉ p :: visited := by
            simp only [List.mem_cons, not_or]
            exact ⟨hcp, hcnv⟩
          exact ih _ _ hsuff' c hc hcnv' r hr hrok

/-- Every reachable cell is admissible and initially unobserved. -/
theorem Reach.not_obs {gB : P3 → String} {cat : List String} {box : Box}
    {diag : Bool} {obs : List P3} {seed c : P3}
    (h : Reach gB cat box diag obs seed c) :
    cellOK gB cat box c = true ∧ c ∉ obs := by
  cases h with
  | base hok hno => exact ⟨hok, hno⟩
  | step _ _ hok hno => exact ⟨hok, hno⟩

theorem floodLoop_complete (gB : P3 → String) (cat : List String)
    (box : Box) (diag : Bool) (obs : List P3) (seed : P3) (c : P3)
    (h : Reach gB cat box diag obs seed c) :
    c ∈ floodLoop gB cat box diag (floodFuel box) [seed] obs := by
  have hsuff : 27 * unvisitedCount box obs + ([seed] : List P3).length ≤
      floodFuel box := by
    have := unvisitedCount_le_volume box obs
    simp only [List.length_singleton, floodFuel]
    omega
  induction h with
  | base hok _ =>
    exact floodLoop_mem_of_stack gB cat box diag _ _ _ hsuff seed
      (List.mem_singleton_self _) hok
  | step hp hnb hok hno ih =>
    rename_i p q
    have hpmem := ih
    have hpno := (Reach.not_obs hp).2
    exact floodLoop_closed gB cat box diag _ _ _ hsuff p hpmem hpno q hnb hok

theorem floodLoop_filter_nodup (gB : P3 → String) (cat : List String)
    (box : Box) (diag : Bool) (obs : List P3) :
    ∀ (fuel : Nat) (stack visited : List P3),
      (∀ x ∈ obs, x ∈ visited) →
      ((visited.filter (fun p => p ∉ obs)).Nodup) →
      ((floodLoop gB cat box diag fuel stack visited).filter
        (fun p => p ∉ obs)).Nodup := by
  intro fuel
  induction fuel with
  | zero => intro stack visited _ hnd; simpa [floodLoop] using hnd
  | succ n ih =>
    intro stack visited hobs hnd
    cases stack with
    | nil => simpa [floodLoop] using hnd
    | cons p rest =>
      simp only [floodLoop]
      split
      · exact ih rest visited hobs hnd
      · rename_i hadd
        push_neg at hadd
        obtain ⟨hpnv, _⟩ := hadd
        refine ih _ _ (fun x hx => List.mem_cons_of_mem _ (hobs x hx)) ?_
        have hpnobs : p ∉ obs := fun h => hpnv (hobs p h)
        rw [List.filter_cons_of_pos (by simpa using hpnobs)]
        refine List.Nodup.cons ?_ hnd
        intro hmem
        exact hpnv (List.mem_of_mem_filter hmem)

theorem floodLoop_fuel_succ (gB : P3 → String) (cat : List String)
    (box : Box) (diag : Bool) :
    ∀ (fuel : Nat) (stack visited : List P3),
      27 * unvisitedCount box visited + stack.length ≤ fuel →
      floodLoop gB cat box diag (fuel + 1) stack visited =
        floodLoop gB cat box diag fuel stack visited := by
  intro fuel
  induction fuel with
  | zero =>
    intro stack visited h
    have : stack.length = 0 := by omega
    rw [List.length_eq_zero] at this
    subst this
    simp [floodLoop]
  | succ n ih =>
    intro stack visited h
    cases stack with
    | nil => simp [floodLoop]
    | cons p rest =>
      simp only [List.length_cons] at h
      simp only [floodLoop]
      split
      · exact ih rest visited (by omega)
      · rename_i hadd
        push_neg at hadd
        obtain ⟨hpnv, hpok⟩ := hadd
        have hpbox : p ∈ box.finset := by
          rw [Box.mem_finset]
          unfold cellOK at hpok
          exact (Bool.and_eq_true _ _).mp hpok |>.1
        have hdec := unvisitedCount_cons_lt box hpbox hpnv
        have hnb := length_neighbors_le diag p
        refine ih _ _ ?_
        simp only [List.length_append]
        omega

theorem floodLoop_fuel_add (gB : P3 → String) (cat : List String)
    (box : Box) (diag : Bool) :
    ∀ (k fuel : Nat) (stack visited : List P3),
      27 * unvisitedCount box visited + stack.length ≤ fuel →
      floodLoop gB cat box diag (fuel + k) stack visited =
        floodLoop gB cat box diag fuel stack visited := by
  intro k
  induction k with
  | zero => intro fuel stack visited _; rfl
  | succ m ih =>
    intro fuel stack visited h
    have : fuel + (m + 1) = (fuel + m) + 1 := by omega
    rw [this, floodLoop_fuel_succ gB cat box diag (fuel + m) stack visited
      (by omega), ih fuel stack visited h]

/-- C2: for every finite inclusive bound box, block-category predicate,
seed and observed accumulator, the flood-fill detector terminates (its
worklist loop is a total function whose result is stable under any
additional fuel), the returned region is exactly the set of in-box
coordinates satisfying the predicate that are reachable from the seed
through unobserved cells under the chosen connectivity (6-neighbour by
default, 26-neighbour when `diagonal` is true), and no coordinate is
processed twice (the region and the newly-observed list have no
duplicates and coincide). -/
theorem C2_flood_search_3D_correct (gB : P3 → String) (cat : List String)
    (box : Box) (diag : Bool) (obs : List P3) (seed : P3) :
    (flood_search_3D gB seed box cat obs diag).1.Nodup ∧
    (flood_search_3D gB seed box cat obs diag).2 =
      (flood_search_3D gB seed box cat obs diag).1 ∧
    (∀ c, c ∈ (flood_search_3D gB seed box cat obs diag).1 ↔
      Reach gB cat box diag obs seed c) ∧
    (∀ f, floodFuel box ≤ f →
      floodLoop gB cat box diag f [seed] obs =
        floodLoop gB cat box diag (floodFuel box) [seed] obs) := by
  have hsuff : 27 * unvisitedCount box obs + ([seed] : List P3).length ≤
      floodFuel box := by
    have := unvisitedCount_le_volume box obs
    simp only [List.length_singleton, floodFuel]
    omega
  refine ⟨?_, rfl, ?_, ?_⟩
  · apply floodLoop_filter_nodup gB cat box diag obs _ _ _ (fun x hx => hx)
    have : obs.filter (fun p => (p ∉ obs : Bool)) = [] := by
      rw [List.filter_eq_nil_iff]
      intro a ha
      simp [ha]
    rw [this]
    exact List.nodup_nil
  · intro c
    simp only [flood_search_3D]
    constructor
    · intro hc
      rw [List.mem_filter] at hc
      obtain ⟨hfin, hno⟩ := hc
      simp only [decide_eq_true_eq] at hno
      have := floodLoop_sound gB cat box diag obs seed (floodFuel box)
        [seed] obs (fun x hx => hx) (fun x hx => Or.inl hx)
        (fun x hx hok hnob => by
          rw [List.mem_singleton] at hx
          subst hx
          exact Reach.base hok hnob) c hfin
      rcases this with h | h
      · exact absurd h hno
      · exact h
    · intro hr
      rw [List.mem_filter]
      refine ⟨floodLoop_complete gB cat box diag obs seed c hr, ?_⟩
      simp [(Reach.not_obs hr).2]
  · intro f hf
    have : f = floodFuel box + (f - floodFuel box) := by omega
    rw [this]
    exact floodLoop_fuel_add gB cat box diag _ _ _ _ hsuff

/-! ## The heightmap refiner `calculateTreelessHeightmap` -/

/-- The cached world-slice snapshot (external collaborator, §6 of the
spec): heightmaps by name, the build rectangle `(x0, z0, xspan, zspan)`,
the chunk rectangle, and the biome queries. -/
structure WorldSlice where
  heightmaps : String → Nat → Nat → Int
  rect : Int × Int × Nat × Nat
  chunkRect : Int × Int × Nat × Nat
  getPrimaryBiomeNear : Int → Int → Int → String
  getBiomesNear : Int → Int → Int → List String

/-- The foliage/air test of the descent loop:
`block[-4:] == '_log' or block[-7:] == '_leaves' or block in lookup.AIR`
(the air-category table is an external collaborator). -/
def isFoliage (AIR : List String) (block : String) : Bool :=
  pyTail 4 block = "_log" || pyTail 7 block = "_leaves" || block ∈ AIR

/-- The `while True` descent loop of `calculateTreelessHeightmap` for one
column, reading `y = heightmap[x, z]` and decrementing while the block at
`y` is foliage or air.  The source loop has no lower bound; the fuel
parameter makes the model total, with `none` standing for a loop that has
not terminated within `fuel` iterations. -/
def refineColumn (blockAt : Int → String) (AIR : List String) :
    Nat → Int → Option Int
  | 0, _ => none
  | fuel + 1, y =>
    if isFoliage AIR (blockAt y) then refineColumn blockAt AIR fuel (y - 1)
    else some y

/-- The refined height of column `(x, z)` of the slice's rectangle. -/
def refineAt (sl : WorldSlice) (getBlock : P3 → String) (AIR : List String)
    (fuel : Nat) (x z : Nat) : Option Int :=
  refineColumn (fun y => getBlock (sl.rect.1 + x, y, sl.rect.2.1 + z)) AIR
    fuel (sl.heightmaps "MOTION_BLOCKING_NO_LEAVES" x z)

/-- The in-place refined `MOTION_BLOCKING_NO_LEAVES` heightmap: columns
inside the rectangle are refined, columns outside it keep their raw
value (the source loop only visits the rectangle). -/
def treelessHM (sl : WorldSlice) (getBlock : P3 → String)
    (AIR : List String) (fuel : Nat) : Nat → Nat → Int := fun x z =>
  if x < sl.rect.2.2.1 ∧ z < sl.rect.2.2.2 then
    (refineAt sl getBlock AIR fuel x z).getD
      (sl.heightmaps "MOTION_BLOCKING_NO_LEAVES" x z)
  else sl.heightmaps "MOTION_BLOCKING_NO_LEAVES" x z

/-- The snapshot after `calculateTreelessHeightmap`: the stored
`MOTION_BLOCKING_NO_LEAVES` heightmap has been refined in place, every
other field is untouched. -/
def treelessSlice (sl : WorldSlice) (getBlock : P3 → String)
    (AIR : List String) (fuel : Nat) : WorldSlice :=
  { sl with
    heightmaps := fun name =>
      if name = "MOTION_BLOCKING_NO_LEAVES" then treelessHM sl getBlock AIR fuel
      else sl.heightmaps name }

/-- `calculateTreelessHeightmap(worldSlice, interface)`: mutates the
slice's `MOTION_BLOCKING_NO_LEAVES` heightmap in place and returns it.
The model returns the post-call snapshot together with the returned
heightmap; `none` models the source's unbounded descent loop failing to
terminate within `fuel` iterations on some column. -/
def calculateTreelessHeightmap (sl : WorldSlice) (getBlock : P3 → String)
    (AIR : List String) (fuel : Nat) :
    Option (WorldSlice × (Nat → Nat → Int)) :=
  if (List.range sl.rect.2.2.1).all (fun x =>
      (List.range sl.rect.2.2.2).all (fun z =>
        (refineAt sl getBlock AIR fuel x z).isSome)) then
    some (treelessSlice sl getBlock AIR fuel, treelessHM sl getBlock AIR fuel)
  else none

/-- C5: the descent loop of `calculateTreelessHeightmap` has no lower
bound: on a column that is air (or logs/leaves) at and below the sampled
height it never reaches the `break`, whatever iteration budget it is
given — the source loop descends forever.  This contradicts the spec's
requirement that the refiner be bounded against descending past the
world's minimum elevation. -/
theorem C5_descent_unbounded (AIR : List String) (hair : "air" ∈ AIR) :
    ∀ (fuel : Nat) (y : Int),
      refineColumn (fun _ => "air") AIR fuel y = none := by
  intro fuel
  induction fuel with
  | zero => intro y; rfl
  | succ n ih =>
    intro y
    have hfol : isFoliage AIR "air" = true := by
      simp [isFoliage, hair]
    simp only [refineColumn, hfol, if_true]
    exact ih (y - 1)

/-- Closed instance for C5: with the air category table `["air"]`, the
all-air column never terminates within any fuel, e.g. 100 iterations
starting at height 5. -/
theorem C5_descent_unbounded_witness :
    refineColumn (fun _ => "air") ["air"] 100 5 = none :=
  C5_descent_unbounded ["air"] (by decide) 100 5

/-- C6: the refiner decrements the sampled height exactly while the block
at that height ends in `_log` or `_leaves` or is in the air category, and
stops at the first other block: if the blocks at depths `0, …, d-1` below
the start are foliage/air and the block at depth `d` is not, the loop
returns the elevation of that first non-foliage block. -/
theorem C6_refine_stops_at_first_solid (blockAt : Int → String)
    (AIR : List String) (y0 : Int) (d fuel : Nat)
    (hfol : ∀ k < d, isFoliage AIR (blockAt (y0 - k)) = true)
    (hstop : isFoliage AIR (blockAt (y0 - d)) = false)
    (hfuel : d < fuel) :
    refineColumn blockAt AIR fuel y0 = some (y0 - d) := by
  induction d generalizing y0 fuel with
  | zero =>
    cases fuel with
    | zero => omega
    | succ n =>
      simp only [refineColumn]
      rw [show y0 - (0 : Nat) = y0 by omega] at hstop
      rw [hstop]
      simp
  | succ m ih =>
    cases fuel with
    | zero => omega
    | succ n =>
      have h0 : isFoliage AIR (blockAt y0) = true := by
        have := hfol 0 (by omega)
        rwa [show y0 - (0 : Nat) = y0 by omega] at this
      simp only [refineColumn, h0, if_true]
      have hres := ih (y0 - 1) n
        (fun k hk => by
          have := hfol (k + 1) (by omega)
          rwa [show y0 - ((k : Nat) + 1 : Nat) = y0 - 1 - k by push_cast; ring]
            at this)
        (by rwa [show y0 - 1 - (m : Nat) = y0 - ((m : Nat) + 1 : Nat) by
          push_cast; ring])
        (by omega)
      rw [hres]
      congr 1
      push_cast
      ring

/-- Closed instance for C6: a column whose top blocks from the starting
height 10 are leaves, leaves, log, then stone refines to the stone's
elevation 7. -/
theorem C6_refine_stops_witness :
    refineColumn
      (fun y => if y = 10 then "oak_leaves" else if y = 9 then "birch_leaves"
        else if y = 8 then "oak_log" else "stone") ["air"] 5 10 =
      some 7 := by
  have := C6_refine_stops_at_first_solid
    (fun y => if y = 10 then "oak_leaves" else if y = 9 then "birch_leaves"
      else if y = 8 then "oak_log" else "stone") ["air"] 10 3 5
    (by decide) (by decide) (by decide)
  simpa using this

/-- C10: whenever `calculateTreelessHeightmap` completes, the heightmap
it returns is the snapshot's own stored `MOTION_BLOCKING_NO_LEAVES`
heightmap after the call (the refined heights are written back in place,
so the snapshot no longer holds the raw heights: inside the rectangle the
stored value is the refined descent result), and no other field of the
snapshot — other heightmap names, `rect`, `chunkRect`, and the biome
queries — is modified. -/
theorem C10_heightmap_refined_in_place (sl : WorldSlice)
    (getBlock : P3 → String) (AIR : List String) (fuel : Nat)
    (sl' : WorldSlice) (hm : Nat → Nat → Int)
    (h : calculateTreelessHeightmap sl getBlock AIR fuel = some (sl', hm)) :
    sl'.heightmaps "MOTION_BLOCKING_NO_LEAVES" = hm ∧
    (∀ name, name ≠ "MOTION_BLOCKING_NO_LEAVES" →
      sl'.heightmaps name = sl.heightmaps name) ∧
    sl'.rect = sl.rect ∧ sl'.chunkRect = sl.chunkRect ∧
    sl'.getPrimaryBiomeNear = sl.getPrimaryBiomeNear ∧
    sl'.getBiomesNear = sl.getBiomesNear ∧
    (∀ x z, x < sl.rect.2.2.1 → z < sl.rect.2.2.2 →
      refineColumn (fun y => getBlock (sl.rect.1 + x, y, sl.rect.2.1 + z))
        AIR fuel (sl.heightmaps "MOTION_BLOCKING_NO_LEAVES" x z) =
        some (hm x z)) ∧
    (∀ x z, sl.rect.2.2.1 ≤ x ∨ sl.rect.2.2.2 ≤ z →
      hm x z = sl.heightmaps "MOTION_BLOCKING_NO_LEAVES" x z) := by
  unfold calculateTreelessHeightmap at h
  split at h
  case isFalse => exact absurd h (by simp)
  case isTrue hall =>
    rw [Option.some_inj, Prod.mk.injEq] at h
    obtain ⟨hsl, hhm⟩ := h
    refine ⟨?_, ?_, ?_, ?_, ?_, ?_, ?_, ?_⟩
    · rw [← hsl, ← hhm]
      simp [treelessSlice]
    · intro name hname
      rw [← hsl]
      simp [treelessSlice, hname]
    · rw [← hsl]; rfl
    · rw [← hsl]; rfl
    · rw [← hsl]; rfl
    · rw [← hsl]; rfl
    · intro x z hx hz
      have hs : (refineAt sl getBlock AIR fuel x z).isSome := by
        rw [List.all_eq_true] at hall
        have := hall x (List.mem_range.mpr hx)
        rw [List.all_eq_true] at this
        exact this z (List.mem_range.mpr hz)
      obtain ⟨v, hv⟩ := Option.isSome_iff_exists.mp hs
      have : hm x z = v := by
        rw [← hhm]
        simp [treelessHM, hx, hz, hv]
      rw [this]
      have := hv
      unfold refineAt at this
      exact this
    · intro x z hxz
      rw [← hhm]
      have : ¬ (x < sl.rect.2.2.1 ∧ z < sl.rect.2.2.2) := by omega
      simp [treelessHM, this]

/-- A 1×1-column test snapshot over a stone world, used to witness C10. -/
def testSlice : WorldSlice where
  heightmaps := fun _ _ _ => 5
  rect := (0, 0, 1, 1)
  chunkRect := (0, 0, 1, 1)
  getPrimaryBiomeNear := fun _ _ _ => "plains"
  getBiomesNear := fun _ _ _ => ["plains"]

/-- Closed instance for C10 on the stone test snapshot. -/
theorem C10_heightmap_refined_in_place_witness :
    (treelessSlice testSlice (fun _ => "stone") ["air"] 2).heightmaps
      "MOTION_BLOCKING_NO_LEAVES" =
      treelessHM testSlice (fun _ => "stone") ["air"] 2 ∧
    (treelessSlice testSlice (fun _ => "stone") ["air"] 2).rect =
      testSlice.rect :=
  have h := C10_heightmap_refined_in_place testSlice (fun _ => "stone")
    ["air"] 2 (treelessSlice testSlice (fun _ => "stone") ["air"] 2)
    (treelessHM testSlice (fun _ => "stone") ["air"] 2) (by rfl)
  ⟨h.1, h.2.2.1⟩

/-! ## The region grid and the biome classifier -/

/-- One chunk record of the region grid. -/
structure ChunkInfo where
  designations : List String
  primary_biome : String
  biomes : List String
deriving DecidableEq

/-- `chunk_info_template = {'designations': [], 'primary_biome': None,
'biomes': []}`; the `None` placeholder is rendered as the empty string —
it is only ever read after the classifier has assigned it. -/
def chunk_info_template : ChunkInfo :=
  { designations := [], primary_biome := "", biomes := [] }

/-- The 2D region grid `chunk_info`, outer index `x`, inner index `z`. -/
abbrev Grid : Type := List (List ChunkInfo)

/-- The initial grid of `XCHUNKSPAN × ZCHUNKSPAN` template records. -/
def initGrid (xspan zspan : Nat) : Grid :=
  (List.range xspan).map fun _ =>
    (List.range zspan).map fun _ => chunk_info_template

/-- The body of `chunk_biome_analysis` for one chunk `(x, z)`: query the
primary biome and biome set near world column
`(STARTX + 16 x, STARTZ + 16 z)`, reset `designations` to empty, then
append tags by the ordered substring rules of the source. -/
def classifyCell (sl : WorldSlice) (STARTX STARTZ : Int) (x z : Nat) :
    ChunkInfo :=
  let pb := sl.getPrimaryBiomeNear (STARTX + x * 16) 0 (STARTZ + z * 16)
  let bs := sl.getBiomesNear (STARTX + x * 16) 0 (STARTZ + z * 16)
  let d0 : List String := []
  let d1 := if pyIn "snowy" pb then d0 ++ ["snowy"] else d0
  let d2 := if pyIn "forest" pb || pyIn "taiga" pb || pyIn "grove" pb ||
      pyIn "wooded" pb then d1 ++ ["forest"] else d1
  let d3 := if pyIn "ocean" pb || pyIn "swamp" pb then d2 ++ ["water"]
    else if pyIn "beach" pb || pyIn "river" pb || pyIn "shore" pb then
      d2 ++ ["water-adjacent"]
    else d2
  let d4 := if pyIn "peaks" pb || pyIn "hills" pb || pyIn "mountains" pb ||
      pyIn "windswept" pb || pyIn "eroded" pb then d3 ++ ["harsh"]
    else if pyIn "plains" pb || pyIn "meadow" pb || pyIn "fields" pb ||
        pyIn "sparse" pb || pyIn "plateau" pb || pyIn "desert" pb then
      d3 ++ ["flat"]
    else d3
  { designations := d4, primary_biome := pb, biomes := bs }

/-- Classify one grid row, overwriting every record in place. -/
def classifyRow (sl : WorldSlice) (STARTX STARTZ : Int) (x : Nat) :
    Nat → List ChunkInfo → List ChunkInfo
  | _, [] => []
  | z, _ :: t =>
    classifyCell sl STARTX STARTZ x z ::
      classifyRow sl STARTX STARTZ x (z + 1) t

/-- Classify the rows of the grid in place. -/
def classifyGrid (sl : WorldSlice) (STARTX STARTZ : Int) :
    Nat → Grid → Grid
  | _, [] => []
  | x, row :: rows =>
    classifyRow sl STARTX STARTZ x 0 row ::
      classifyGrid sl STARTX STARTZ (x + 1) rows

/-- `chunk_biome_analysis()`: loop through all chunks of the build area
and identify biome traits, fully overwriting each record. -/
def chunk_biome_analysis (sl : WorldSlice) (STARTX STARTZ : Int)
    (g : Grid) : Grid :=
  classifyGrid sl STARTX STARTZ 0 g

theorem classifyRow_idem (sl : WorldSlice) (SX SZ : Int) (x : Nat) :
    ∀ (z : Nat) (row : List ChunkInfo),
      classifyRow sl SX SZ x z (classifyRow sl SX SZ x z row) =
        classifyRow sl SX SZ x z row := by
  intro z row
  induction row generalizing z with
  | nil => rfl
  | cons c t ih => simp only [classifyRow]; rw [ih]

theorem classifyGrid_idem (sl : WorldSlice) (SX SZ : Int) :
    ∀ (x : Nat) (g : Grid),
      classifyGrid sl SX SZ x (classifyGrid sl SX SZ x g) =
        classifyGrid sl SX SZ x g := by
  intro x g
  induction g generalizing x with
  | nil => rfl
  | cons row rows ih =>
    simp only [classifyGrid]
    rw [classifyRow_idem, ih]

theorem classifyCell_nodup (sl : WorldSlice) (SX SZ : Int) (x z : Nat) :
    (classifyCell sl SX SZ x z).designations.Nodup := by
  simp only [classifyCell]
  split_ifs <;> decide

theorem classifyRow_mem (sl : WorldSlice) (SX SZ : Int) (x : Nat) :
    ∀ (z : Nat) (row : List ChunkInfo) (c : ChunkInfo),
      c ∈ classifyRow sl SX SZ x z row →
      ∃ z', c = classifyCell sl SX SZ x z' := by
  intro z row
  induction row generalizing z with
  | nil => intro c hc; simp [classifyRow] at hc
  | cons a t ih =>
    intro c hc
    simp only [classifyRow, List.mem_cons] at hc
    rcases hc with rfl | hc
    · exact ⟨z, rfl⟩
    · exact ih (z + 1) c hc

theorem classifyGrid_mem (sl : WorldSlice) (SX SZ : Int) :
    ∀ (x : Nat) (g : Grid) (row : List ChunkInfo) (c : ChunkInfo),
      row ∈ classifyGrid sl SX SZ x g → c ∈ row →
      ∃ x' z', c = classifyCell sl SX SZ x' z' := by
  intro x g
  induction g generalizing x with
  | nil => intro row c hr; simp [classifyGrid] at hr
  | cons r rs ih =>
    intro row c hr hc
    simp only [classifyGrid, List.mem_cons] at hr
    rcases hr with rfl | hr
    · obtain ⟨z', hz'⟩ := classifyRow_mem sl SX SZ x 0 r c hc
      exact ⟨x, z', hz'⟩
    · exact ih (x + 1) row c hr hc

/-- C9: running the biome classifier twice on an unchanged snapshot is
the same as running it once — each run resets every record's
`designations` to empty before appending tags — and no run ever
accumulates duplicate tags. -/
theorem C9_classifier_idempotent (sl : WorldSlice) (SX SZ : Int)
    (g : Grid) :
    chunk_biome_analysis sl SX SZ (chunk_biome_analysis sl SX SZ g) =
      chunk_biome_analysis sl SX SZ g ∧
    (∀ row ∈ chunk_biome_analysis sl SX SZ g, ∀ c ∈ row,
      c.designations.Nodup) := by
  constructor
  · exact classifyGrid_idem sl SX SZ 0 g
  · intro row hrow c hc
    obtain ⟨x', z', rfl⟩ := classifyGrid_mem sl SX SZ 0 g row c hrow hc
    exact classifyCell_nodup sl SX SZ x' z'

theorem classifyCell_excl (sl : WorldSlice) (SX SZ : Int) (x z : Nat) :
    ¬("water" ∈ (classifyCell sl SX SZ x z).designations ∧
      "water-adjacent" ∈ (classifyCell sl SX SZ x z).designations) ∧
    ¬("harsh" ∈ (classifyCell sl SX SZ x z).designations ∧
      "flat" ∈ (classifyCell sl SX SZ x z).designations) := by
  simp only [classifyCell]
  split_ifs <;> decide

/-! ## The `__main__` analysis pass: structure/water sampling and the
water-body merger -/

/-- The grid resolution of sub-chunk searches. -/
def SUB_CHUNK_RES : Nat := 4

/-- One `waterbody_info` record:
`{'connections': [], 'biomes_touching': [], 'biome_adjacent': []}`. -/
structure WBRecord where
  connections : List String
  biomes_touching : List String
  biome_adjacent : List String
deriving DecidableEq

/-- The empty record installed at every detection. -/
def freshWB : WBRecord :=
  { connections := [], biomes_touching := [], biome_adjacent := [] }

/-- The external collaborators of the pass: block queries, category
tables, and the build-area origin (`buildlocal2global` adds it). -/
structure World where
  getBlock : P3 → String
  ARTIFICIAL : List String
  FLUID : List String
  startX : Int
  startZ : Int

/-- Python dict lookup on an association list whose newest binding is
frontmost (dict assignment is modelled by prepending). -/
def alookup [DecidableEq κ] : List (κ × β) → κ → Option β
  | [], _ => none
  | (k, v) :: t, k' => if k' = k then some v else alookup t k'

/-- Python `key in dict`. -/
def amem [DecidableEq κ] (m : List (κ × β)) (k : κ) : Bool :=
  (alookup m k).isSome

/-- In-place mutation of the newest binding of `k`. -/
def aupdate [DecidableEq κ] (f : β → β) : List (κ × β) → κ → List (κ × β)
  | [], _ => []
  | (k, v) :: t, k' => if k' = k then (k, f v) :: t else (k, v) :: aupdate f t k'

/-- `chunk_info[x][z]` for in-range indices (all uses below are
in-range; the template is a don't-care default). -/
def gridGet (g : Grid) (x z : Nat) : ChunkInfo :=
  (((g.get? x).getD []).get? z).getD chunk_info_template

/-- In-place mutation of `chunk_info[x][z]`. -/
def gridModify (g : Grid) (x z : Nat) (f : ChunkInfo → ChunkInfo) : Grid :=
  listModify (fun row => listModify f z row) x g

/-- `chunk_info[i][j]` with Python indexing semantics (negative indices
wrap, out-of-range raises — modelled by `none`). -/
def pyIdx2 (g : Grid) (i j : Int) : Option ChunkInfo :=
  match pyIdx g i with
  | none => none
  | some row => pyIdx row j

/-- The `surrounding` computation of the water branch: concatenates the
`primary_biome` strings of the four diagonal neighbour chunks (Python
`+` on strings, extended into a list of characters); `none` models the
`IndexError` raised at the grid edge.  The source never stores this
value anywhere. -/
def pySurrounding (g : Grid) (cx cz : Nat) : Option (List Char) :=
  match pyIdx2 g ((cx : Int) + 1) ((cz : Int) + 1),
      pyIdx2 g ((cx : Int) - 1) ((cz : Int) + 1),
      pyIdx2 g ((cx : Int) + 1) ((cz : Int) - 1),
      pyIdx2 g ((cx : Int) - 1) ((cz : Int) - 1) with
  | some a, some b, some c, some d =>
    some (a.primary_biome ++ b.primary_biome ++ c.primary_biome ++
      d.primary_biome).data
  | _, _, _, _ => none

/-- The body-naming branch (lines 251–262): suffix `ocean`, exact
`river`, prefix `swamp`, otherwise sized pond/lake with threshold 256. -/
def bodyName (pbiome : String) (cx cz : Nat) (size : Nat) : String :=
  if pyTail 5 pbiome = "ocean" then
    "ocean-" ++ Nat.repr cx ++ "-" ++ Nat.repr cz
  else if pbiome = "river" then
    "river-" ++ Nat.repr cx ++ "-" ++ Nat.repr cz
  else if pyTake 5 pbiome = "swamp" then
    "swamp-" ++ Nat.repr cx ++ "-" ++ Nat.repr cz
  else if size < 256 then
    "pond-" ++ Nat.repr cx ++ "-" ++ Nat.repr cz
  else
    "lake-" ++ Nat.repr cx ++ "-" ++ Nat.repr cz

/-- The process-wide analysis state: the region grid and the avoidance
and water-network dictionaries; `crashed` freezes the state once an
unhandled `IndexError` aborts the Python run. -/
structure AState where
  grid : Grid
  to_avoid : List (P3 × String)
  waterways : List (P3 × String)
  waterbody_info : List (String × WBRecord)
  crashed : Bool
deriving DecidableEq

/-- One iteration of the claiming loop (lines 267–284) over a region
coordinate: an already-owned coordinate contributes its owner to the new
body's `connections` (deduplicated) and is not reassigned; an unowned
coordinate is claimed, `biomes_touching` is overwritten with the
detecting chunk's biome set, and the (discarded) `surrounding`
concatenation is evaluated — raising at the grid edge. -/
def claimStep (cx cz : Nat) (name : String) (st : AState) (c : P3) :
    AState :=
  if st.crashed then st else
  match alookup st.waterways c with
  | some owner =>
    { st with
      waterbody_info := aupdate (fun r =>
        if owner ∈ r.connections then r
        else { r with connections := r.connections ++ [owner] })
        st.waterbody_info name }
  | none =>
    let st1 := { st with
      waterways := (c, name) :: st.waterways,
      waterbody_info := aupdate (fun r =>
        { r with biomes_touching := (gridGet st.grid cx cz).biomes })
        st.waterbody_info name }
    match pySurrounding st1.grid cx cz with
    | some _ => st1
    | none => { st1 with crashed := true }

/-- The chunk-local scan state: the global state plus the `obs_struc`
and `obs_fluid` accumulators shared across the 16 sample points. -/
structure ChunkScan where
  st : AState
  obs_struc : List P3
  obs_fluid : List P3

/-- One sub-chunk sample point `(jx, jz)` of chunk `(cx, cz)`
(lines 220–284): the artificial/structure branch and the fluid/water
branch with naming, record creation and the claiming loop. -/
def processSample (w : World) (hm : Nat → Nat → Int) (cx cz : Nat)
    (cs : ChunkScan) (jx jz : Nat) : ChunkScan :=
  if cs.st.crashed then cs else
  let localx := cx * 16 + jx * SUB_CHUNK_RES
  let localz := cz * 16 + jz * SUB_CHUNK_RES
  let p : P3 := (w.startX + localx, hm localx localz, w.startZ + localz)
  let chunkBox : Box :=
    { x1 := w.startX + cx * 16, y1 := 0, z1 := w.startZ + cz * 16,
      x2 := w.startX + (cx * 16 + 16), y2 := 255,
      z2 := w.startZ + (cz * 16 + 16) }
  let overlapBox : Box :=
    { x1 := chunkBox.x1 - 1, y1 := chunkBox.y1, z1 := chunkBox.z1 - 1,
      x2 := chunkBox.x2 + 1, y2 := chunkBox.y2, z2 := chunkBox.z2 + 1 }
  if w.getBlock p ∈ w.ARTIFICIAL ∧ ¬ amem cs.st.to_avoid p then
    let st1 :=
      if "structure" ∈ (gridGet cs.st.grid cx cz).designations then cs.st
      else { cs.st with grid := gridModify cs.st.grid cx cz (fun ci =>
        { ci with designations := ci.designations ++ ["structure"] }) }
    let fr := flood_search_3D w.getBlock p chunkBox w.ARTIFICIAL
      cs.obs_struc true
    let av := fr.1.foldl
      (fun m c => (c, "Artificial structure detected") :: m) st1.to_avoid
    let st2 := { st1 with to_avoid := av }
    { st := st2, obs_struc := cs.obs_struc ++ fr.2,
      obs_fluid := cs.obs_fluid }
  else if w.getBlock p ∈ w.FLUID ∧ ¬ amem cs.st.waterways p then
    let st1 :=
      if "water" ∈ (gridGet cs.st.grid cx cz).designations then cs.st
      else { cs.st with grid := gridModify cs.st.grid cx cz (fun ci =>
        { ci with designations := ci.designations ++ ["water"] }) }
    let fr := flood_search_3D w.getBlock p overlapBox w.FLUID
      cs.obs_fluid false
    let pbiome := (gridGet st1.grid cx cz).primary_biome
    let name := bodyName pbiome cx cz fr.1.length
    let st2 := { st1 with
      waterbody_info := (name, freshWB) :: st1.waterbody_info }
    let st3 := fr.1.foldl (claimStep cx cz name) st2
    { st := st3, obs_struc := cs.obs_struc,
      obs_fluid := cs.obs_fluid ++ fr.2 }
  else cs

/-- `loop2d(a, b)`: all `(i, j)` with `i < a`, `j < b`, `i` outermost. -/
def loop2dList (a b : Nat) : List (Nat × Nat) :=
  (List.range a).flatMap fun i => (List.range b).map fun j => (i, j)

/-- The 4×4 sub-chunk sample scan of one chunk, with fresh `obs_struc`
and `obs_fluid` accumulators. -/
def processChunk (w : World) (hm : Nat → Nat → Int) (st : AState)
    (cx cz : Nat) : AState :=
  ((loop2dList SUB_CHUNK_RES SUB_CHUNK_RES).foldl
    (fun cs (j : Nat × Nat) => processSample w hm cx cz cs j.1 j.2)
    { st := st, obs_struc := [], obs_fluid := [] }).st

/-- The per-chunk analysis loop over the whole grid (lines 210–284). -/
def analysisLoop (w : World) (hm : Nat → Nat → Int) (st : AState) :
    AState :=
  (loop2dList st.grid.length ((st.grid.get? 0).getD []).length).foldl
    (fun s (c : Nat × Nat) => processChunk w hm s c.1 c.2) st

/-- The full analysis pass (lines 204–284): biome classification, then
heightmap refinement, then the per-chunk sample scan.  `none` when the
refiner fails to terminate within `fuel` on some column. -/
def runAnalysis (w : World) (sl : WorldSlice) (AIR : List String)
    (fuel : Nat) : Option AState :=
  let g1 := chunk_biome_analysis sl w.startX w.startZ
    (initGrid sl.chunkRect.2.2.1 sl.chunkRect.2.2.2)
  match calculateTreelessHeightmap sl w.getBlock AIR fuel with
  | none => none
  | some (_, hm) => some (analysisLoop w hm
    { grid := g1, to_avoid := [], waterways := [], waterbody_info := [],
      crashed := false })

/-! ### State invariants of the analysis pass -/

theorem foldl_preserve {σ α : Type _} (P : σ → Prop) (f : σ → α → σ)
    (hf : ∀ s a, P s → P (f s a)) :
    ∀ (l : List α) (s : σ), P s → P (l.foldl f s) := by
  intro l
  induction l with
  | nil => intro s hs; exact hs
  | cons a t ih => intro s hs; exact ih (f s a) (hf s a hs)

theorem listModify_get? (f : α → α) :
    ∀ (l : List α) (i j : Nat),
      (listModify f i l).get? j =
        if i = j then (l.get? j).map f else l.get? j := by
  intro l
  induction l with
  | nil => intro i j; simp [listModify]
  | cons a t ih =>
    intro i j
    cases i with
    | zero =>
      cases j with
      | zero => simp [listModify]
      | succ m => simp [listModify]
    | succ n =>
      cases j with
      | zero => simp [listModify]
      | succ m =>
        simp only [listModify, List.get?_cons_succ]
        rw [ih n m]
        by_cases h : n = m
        · simp [h]
        · rw [if_neg h, if_neg (fun hh => h (Nat.succ_injective hh))]

theorem gridGet_gridModify_cases (g : Grid) (x z : Nat)
    (f : ChunkInfo → ChunkInfo) (x' z' : Nat) :
    gridGet (gridModify g x z f) x' z' = gridGet g x' z' ∨
    gridGet (gridModify g x z f) x' z' = f (gridGet g x' z') := by
  unfold gridGet gridModify
  rw [listModify_get?]
  by_cases hx : x = x'
  · rw [if_pos hx]
    cases hrow : g.get? x' with
    | none => left; simp
    | some row =>
      simp only [Option.map_some', Option.getD_some]
      rw [listModify_get?]
      by_cases hz : z = z'
      · rw [if_pos hz]
        cases hcell : row.get? z' with
        | none => left; simp
        | some cell => right; simp
      · left; rw [if_neg hz]
  · left; rw [if_neg hx]

theorem alookup_aupdate_self [DecidableEq κ] (f : β → β) :
    ∀ (m : List (κ × β)) (k : κ) (r : β), alookup m k = some r →
      alookup (aupdate f m k) k = some (f r) := by
  intro m
  induction m with
  | nil => intro k r h; simp [alookup] at h
  | cons kv t ih =>
    intro k r h
    obtain ⟨k0, v⟩ := kv
    by_cases hk : k = k0
    · simp only [alookup, if_pos hk] at h
      rw [Option.some_inj] at h
      subst h
      simp [aupdate, alookup, hk]
    · simp only [alookup, if_neg hk] at h
      simp only [aupdate, alookup, if_neg hk]
      exact ih k r h

theorem alookup_aupdate_cases [DecidableEq κ] (f : β → β) :
    ∀ (m : List (κ × β)) (k' k : κ),
      alookup (aupdate f m k') k = alookup m k ∨
      alookup (aupdate f m k') k = (alookup m k).map f := by
  intro m
  induction m with
  | nil => intro k' k; left; rfl
  | cons kv t ih =>
    intro k' k
    obtain ⟨k0, v⟩ := kv
    by_cases hk' : k' = k0
    · subst hk'
      simp only [aupdate, if_pos rfl, alookup]
      by_cases hk : k = k'
      · right; simp [hk]
      · left; simp [hk]
    · simp only [aupdate, if_neg hk', alookup]
      by_cases hk : k = k0
      · left; simp [hk]
      · simp only [if_neg hk]
        exact ih k' k

theorem alookup_aupdate_isSome [DecidableEq κ] (f : β → β)
    (m : List (κ × β)) (k' k : κ) :
    (alookup (aupdate f m k') k).isSome = (alookup m k).isSome := by
  rcases alookup_aupdate_cases f m k' k with h | h
  · rw [h]
  · rw [h]; cases alookup m k <;> simp

/-- The connections of every stored water-body record have no
duplicates. -/
def InvND (st : AState) : Prop :=
  ∀ n r, alookup st.waterbody_info n = some r → r.connections.Nodup

/-- Body `name` exists and already records `b` among its connections. -/
def ConnInv (name b : String) (st : AState) : Prop :=
  ∃ r, alookup st.waterbody_info name = some r ∧ b ∈ r.connections

theorem claimStep_grid (cx cz : Nat) (name : String) (st : AState)
    (c : P3) : (claimStep cx cz name st c).grid = st.grid := by
  unfold claimStep
  split
  · rfl
  · split
    · rfl
    · dsimp only
      split
      · rfl
      · rfl

theorem claimStep_crashed_mono (cx cz : Nat) (name : String) (st : AState)
    (c : P3) (h : st.crashed = true) :
    (claimStep cx cz name st c).crashed = true := by
  unfold claimStep
  rw [if_pos h]
  exact h

theorem claimStep_waterways_pres (cx cz : Nat) (name : String)
    (st : AState) (c : P3) (c' : P3) (b : String)
    (h : alookup st.waterways c' = some b) :
    alookup (claimStep cx cz name st c).waterways c' = some b := by
  unfold claimStep
  split
  · exact h
  · split
    · exact h
    · rename_i hnone
      have hcc : c' ≠ c := by
        intro he
        rw [he, hnone] at h
        exact Option.noConfusion h
      dsimp only
      split
      · simp only [alookup, if_neg hcc]
        exact h
      · simp only [alookup, if_neg hcc]
        exact h

theorem claimStep_info_isSome (cx cz : Nat) (name : String) (st : AState)
    (c : P3) (n : String)
    (h : (alookup st.waterbody_info n).isSome = true) :
    (alookup (claimStep cx cz name st c).waterbody_info n).isSome = true := by
  unfold claimStep
  split
  · exact h
  · split
    · rw [alookup_aupdate_isSome]
      exact h
    · dsimp only
      split
      · rw [alookup_aupdate_isSome]
        exact h
      · rw [alookup_aupdate_isSome]
        exact h

theorem InvND_aupdate (m : List (String × WBRecord)) (k : String)
    (f : WBRecord → WBRecord)
    (hf : ∀ r, r.connections.Nodup → (f r).connections.Nodup)
    (h : ∀ n r, alookup m n = some r → r.connections.Nodup) :
    ∀ n r, alookup (aupdate f m k) n = some r → r.connections.Nodup := by
  intro n r hr
  rcases alookup_aupdate_cases f m k n with hc | hc
  · rw [hc] at hr
    exact h n r hr
  · rw [hc] at hr
    cases hm : alookup m n with
    | none => rw [hm] at hr; exact Option.noConfusion hr
    | some r0 =>
      rw [hm] at hr
      simp only [Option.map_some'] at hr
      rw [Option.some_inj] at hr
      subst hr
      exact hf r0 (h n r0 hm)

theorem claimStep_ND (cx cz : Nat) (name : String) (st : AState) (c : P3)
    (h : InvND st) : InvND (claimStep cx cz name st c) := by
  unfold claimStep
  split
  · exact h
  · split
    · intro n r hr
      refine InvND_aupdate _ _ _ ?_ h n r hr
      intro r0 hr0
      split
      · exact hr0
      · rename_i hnot
        refine List.Nodup.append hr0 (List.nodup_singleton _) ?_
        intro a ha hb
        rw [List.mem_singleton] at hb
        subst hb
        exact hnot ha
    · dsimp only
      split
      · intro n r hr
        exact InvND_aupdate st.waterbody_info name
          (fun r =>
            { r with biomes_touching := (gridGet st.grid cx cz).biomes })
          (fun r0 h0 => h0) h n r hr
      · intro n r hr
        exact InvND_aupdate st.waterbody_info name
          (fun r =>
            { r with biomes_touching := (gridGet st.grid cx cz).biomes })
          (fun r0 h0 => h0) h n r hr

theorem claimStep_ConnInv (cx cz : Nat) (name b : String) (st : AState)
    (c : P3) (h : ConnInv name b st) :
    ConnInv name b (claimStep cx cz name st c) := by
  obtain ⟨r, hr, hb⟩ := h
  unfold claimStep
  split
  · exact ⟨r, hr, hb⟩
  · split
    · refine ⟨_, alookup_aupdate_self _ _ _ _ hr, ?_⟩
      split
      · exact hb
      · exact List.mem_append_left _ hb
    · dsimp only
      split
      · exact ⟨_, alookup_aupdate_self _ _ _ _ hr, hb⟩
      · exact ⟨_, alookup_aupdate_self _ _ _ _ hr, hb⟩

theorem claimStep_establishes_ConnInv (cx cz : Nat) (name b : String)
    (st : AState) (c : P3) (hcr : st.crashed = false)
    (hown : alookup st.waterways c = some b)
    (hsome : (alookup st.waterbody_info name).isSome = true) :
    ConnInv name b (claimStep cx cz name st c) := by
  obtain ⟨r0, hr0⟩ := Option.isSome_iff_exists.mp hsome
  unfold claimStep
  split
  · rename_i hcrash
    rw [hcr] at hcrash
    exact absurd hcrash (by decide)
  · split
    · rename_i owner heq
      rw [hown, Option.some_inj] at heq
      subst heq
      refine ⟨_, alookup_aupdate_self _ _ _ _ hr0, ?_⟩
      split
      · rename_i hin
        exact hin
      · exact List.mem_append_right _ (List.mem_singleton_self _)
    · rename_i heq
      rw [hown] at heq
      exact Option.noConfusion heq

theorem foldClaim_grid (cx cz : Nat) (name : String) :
    ∀ (region : List P3) (st : AState),
      (region.foldl (claimStep cx cz name) st).grid = st.grid := by
  intro region
  induction region with
  | nil => intro st; rfl
  | cons hd tl ih =>
    intro st
    simp only [List.foldl_cons]
    rw [ih, claimStep_grid]

theorem foldClaim_crashed_mono (cx cz : Nat) (name : String) :
    ∀ (region : List P3) (st : AState), st.crashed = true →
      (region.foldl (claimStep cx cz name) st).crashed = true := by
  intro region
  exact foldl_preserve (fun s => s.crashed = true) _
    (fun s a hs => claimStep_crashed_mono cx cz name s a hs) region

theorem foldClaim_waterways_pres (cx cz : Nat) (name : String) (c' : P3)
    (b : String) :
    ∀ (region : List P3) (st : AState),
      alookup st.waterways c' = some b →
      alookup (region.foldl (claimStep cx cz name) st).waterways c' =
        some b := by
  intro region
  exact foldl_preserve (fun s => alookup s.waterways c' = some b) _
    (fun s a hs => claimStep_waterways_pres cx cz name s a c' b hs) region

theorem foldClaim_info_isSome (cx cz : Nat) (name n : String) :
    ∀ (region : List P3) (st : AState),
      (alookup st.waterbody_info n).isSome = true →
      (alookup (region.foldl (claimStep cx cz name) st).waterbody_info
        n).isSome = true := by
  intro region
  exact foldl_preserve
    (fun s => (alookup s.waterbody_info n).isSome = true) _
    (fun s a hs => claimStep_info_isSome cx cz name s a n hs) region

theorem foldClaim_ND (cx cz : Nat) (name : String) :
    ∀ (region : List P3) (st : AState), InvND st →
      InvND (region.foldl (claimStep cx cz name) st) := by
  intro region
  exact foldl_preserve InvND _
    (fun s a hs => claimStep_ND cx cz name s a hs) region

theorem foldClaim_ConnInv (cx cz : Nat) (name b : String) :
    ∀ (region : List P3) (st : AState), ConnInv name b st →
      ConnInv name b (region.foldl (claimStep cx cz name) st) := by
  intro region
  exact foldl_preserve (ConnInv name b) _
    (fun s a hs => claimStep_ConnInv cx cz name b s a hs) region

theorem foldClaim_records_connection (cx cz : Nat) (name b : String) :
    ∀ (region : List P3) (st : AState) (c : P3),
      c ∈ region → alookup st.waterways c = some b →
      (alookup st.waterbody_info name).isSome = true →
      (region.foldl (claimStep cx cz name) st).crashed = false →
      ConnInv name b (region.foldl (claimStep cx cz name) st) := by
  intro region
  induction region with
  | nil => intro st c hc; simp at hc
  | cons hd tl ih =>
    intro st c hc hown hsome hncr
    simp only [List.foldl_cons] at hncr ⊢
    have hst_ncr : st.crashed = false := by
      cases hcr : st.crashed
      · rfl
      · have h1 := claimStep_crashed_mono cx cz name st hd hcr
        have h2 := foldClaim_crashed_mono cx cz name tl _ h1
        rw [h2] at hncr
        exact absurd hncr (by decide)
    rcases List.mem_cons.mp hc with rfl | hc'
    · exact foldClaim_ConnInv cx cz name b tl _
        (claimStep_establishes_ConnInv cx cz name b st c hst_ncr hown hsome)
    · exact ih (claimStep cx cz name st hd) c hc'
        (claimStep_waterways_pres cx cz name st hd c b hown)
        (claimStep_info_isSome cx cz name st hd name hsome) hncr

/-- Chunk-level harsh/flat exclusivity of the grid. -/
def GridHF (g : Grid) : Prop :=
  ∀ x z, ¬("harsh" ∈ (gridGet g x z).designations ∧
    "flat" ∈ (gridGet g x z).designations)

theorem GridHF_append (g : Grid) (x z : Nat) (t : String)
    (ht1 : t ≠ "harsh") (ht2 : t ≠ "flat") (h : GridHF g) :
    GridHF (gridModify g x z (fun ci =>
      { ci with designations := ci.designations ++ [t] })) := by
  intro x' z'
  rcases gridGet_gridModify_cases g x z
    (fun ci => { ci with designations := ci.designations ++ [t] }) x' z'
    with he | he <;> rw [he]
  · exact h x' z'
  · intro hcon
    obtain ⟨hh, hf⟩ := hcon
    simp only [List.mem_append, List.mem_singleton] at hh hf
    rcases hh with hh | hh
    · rcases hf with hf | hf
      · exact h x' z' ⟨hh, hf⟩
      · exact ht2 hf.symm
    · exact ht1 hh.symm

theorem processSample_waterways_pres (w : World) (hm : Nat → Nat → Int)
    (cx cz jx jz : Nat) (c' : P3) (b : String) (cs : ChunkScan)
    (h : alookup cs.st.waterways c' = some b) :
    alookup (processSample w hm cx cz cs jx jz).st.waterways c' =
      some b := by
  unfold processSample
  split
  · exact h
  · dsimp only
    split
    · split <;> exact h
    · split
      · split
        · exact foldClaim_waterways_pres _ _ _ _ _ _ _ h
        · exact foldClaim_waterways_pres _ _ _ _ _ _ _ h
      · exact h

theorem processSample_ND (w : World) (hm : Nat → Nat → Int)
    (cx cz jx jz : Nat) (cs : ChunkScan) (h : InvND cs.st) :
    InvND (processSample w hm cx cz cs jx jz).st := by
  unfold processSample
  split
  · exact h
  · dsimp only
    split
    · split <;> exact h
    · split
      · have hcons : ∀ (st1 : AState) (name : String), InvND st1 →
            InvND { st1 with
              waterbody_info := (name, freshWB) :: st1.waterbody_info } := by
          intro st1 name h1
          intro n r hr
          simp only [alookup] at hr
          split at hr
          · rw [Option.some_inj] at hr
            subst hr
            exact List.nodup_nil
          · exact h1 n r hr
        split
        · exact foldClaim_ND _ _ _ _ _ (hcons _ _ h)
        · exact foldClaim_ND _ _ _ _ _ (hcons _ _ h)
      · exact h

theorem processSample_GridHF (w : World) (hm : Nat → Nat → Int)
    (cx cz jx jz : Nat) (cs : ChunkScan) (h : GridHF cs.st.grid) :
    GridHF (processSample w hm cx cz cs jx jz).st.grid := by
  unfold processSample
  split
  · exact h
  · dsimp only
    split
    · split
      · exact h
      · exact GridHF_append _ _ _ _ (by decide) (by decide) h
    · split
      · rw [foldClaim_grid]
        split
        · exact h
        · exact GridHF_append _ _ _ _ (by decide) (by decide) h
      · exact h

theorem processChunk_waterways_pres (w : World) (hm : Nat → Nat → Int)
    (st : AState) (cx cz : Nat) (c' : P3) (b : String)
    (h : alookup st.waterways c' = some b) :
    alookup (processChunk w hm st cx cz).waterways c' = some b := by
  unfold processChunk
  exact foldl_preserve
    (fun cs : ChunkScan => alookup cs.st.waterways c' = some b) _
    (fun cs j hcs =>
      processSample_waterways_pres w hm cx cz j.1 j.2 c' b cs hcs) _ _ h

theorem processChunk_ND (w : World) (hm : Nat → Nat → Int) (st : AState)
    (cx cz : Nat) (h : InvND st) : InvND (processChunk w hm st cx cz) := by
  unfold processChunk
  exact foldl_preserve (fun cs : ChunkScan => InvND cs.st) _
    (fun cs j hcs => processSample_ND w hm cx cz j.1 j.2 cs hcs) _ _ h

theorem processChunk_GridHF (w : World) (hm : Nat → Nat → Int)
    (st : AState) (cx cz : Nat) (h : GridHF st.grid) :
    GridHF (processChunk w hm st cx cz).grid := by
  unfold processChunk
  exact foldl_preserve (fun cs : ChunkScan => GridHF cs.st.grid) _
    (fun cs j hcs => processSample_GridHF w hm cx cz j.1 j.2 cs hcs) _ _ h

theorem analysisLoop_waterways_pres (w : World) (hm : Nat → Nat → Int)
    (st : AState) (c' : P3) (b : String)
    (h : alookup st.waterways c' = some b) :
    alookup (analysisLoop w hm st).waterways c' = some b := by
  unfold analysisLoop
  exact foldl_preserve (fun s => alookup s.waterways c' = some b)
    (fun s (j : Nat × Nat) => processChunk w hm s j.1 j.2)
    (fun s (j : Nat × Nat) hs =>
      processChunk_waterways_pres w hm s j.1 j.2 c' b hs) _ _ h

theorem analysisLoop_ND (w : World) (hm : Nat → Nat → Int) (st : AState)
    (h : InvND st) : InvND (analysisLoop w hm st) := by
  unfold analysisLoop
  exact foldl_preserve InvND
    (fun s (j : Nat × Nat) => processChunk w hm s j.1 j.2)
    (fun s (j : Nat × Nat) hs => processChunk_ND w hm s j.1 j.2 hs) _ _ h

theorem analysisLoop_GridHF (w : World) (hm : Nat → Nat → Int)
    (st : AState) (h : GridHF st.grid) :
    GridHF (analysisLoop w hm st).grid := by
  unfold analysisLoop
  exact foldl_preserve (fun s => GridHF s.grid)
    (fun s (j : Nat × Nat) => processChunk w hm s j.1 j.2)
    (fun s (j : Nat × Nat) hs => processChunk_GridHF w hm s j.1 j.2 hs) _ _ h

/-! ## Concrete test worlds

A 3×3-chunk build area whose biome is `river` everywhere, all stone at
height 5 except two isolated water cells at the sample points
`(16, 5, 16)` and `(24, 5, 16)` of the interior chunk `(1, 1)`. -/

def cexGB : P3 → String := fun p =>
  if p = ((16 : Int), (5 : Int), (16 : Int)) ∨
      p = ((24 : Int), (5 : Int), (16 : Int)) then "water" else "stone"

def cexSlice : WorldSlice where
  heightmaps := fun _ _ _ => 5
  rect := (0, 0, 48, 48)
  chunkRect := (0, 0, 3, 3)
  getPrimaryBiomeNear := fun _ _ _ => "river"
  getBiomesNear := fun _ _ _ => ["river"]

def cexWorld : World where
  getBlock := cexGB
  ARTIFICIAL := []
  FLUID := ["water"]
  startX := 0
  startZ := 0

/-- The same build area with a single water cell at the sample point
`(32, 5, 32)` of the far-corner chunk `(2, 2)`. -/
def cexEdgeGB : P3 → String := fun p =>
  if p = ((32 : Int), (5 : Int), (32 : Int)) then "water" else "stone"

def cexEdgeWorld : World where
  getBlock := cexEdgeGB
  ARTIFICIAL := []
  FLUID := ["water"]
  startX := 0
  startZ := 0

set_option maxRecDepth 400000 in
/-- C1 (counterexample): on the 3×3 river world, after the full analysis
pass the interior chunk `(1, 1)` — tagged `water-adjacent` by the biome
classifier because its primary biome is `river` — also receives the
`water` tag from the fluid sample branch, so its designations list
contains both `water-adjacent` and `water`, contradicting the claimed
invariant. -/
theorem C1_counterexample_water_pair :
    (runAnalysis cexWorld cexSlice ["air"] 2).map
      (fun st => (gridGet st.grid 1 1).designations) =
      some ["water-adjacent", "water"] := by
  decide

/-- C1 (amended): mutual exclusivity holds as stated for the biome
classifier itself — no classified chunk carries both `water` and
`water-adjacent`, nor both `harsh` and `flat` — and the harsh/flat
exclusivity is furthermore preserved by the whole structure/water sample
pass; but the water pass can add `water` to a chunk already tagged
`water-adjacent` (see the counterexample), so the water pair invariant
holds only up to the end of the classification pass. -/
theorem C1_amended_mutual_exclusivity (sl : WorldSlice) (SX SZ : Int)
    (g : Grid) (w : World) (hm : Nat → Nat → Int) :
    (∀ row ∈ chunk_biome_analysis sl SX SZ g, ∀ c ∈ row,
      ¬("water" ∈ c.designations ∧ "water-adjacent" ∈ c.designations) ∧
      ¬("harsh" ∈ c.designations ∧ "flat" ∈ c.designations)) ∧
    (∀ st : AState, GridHF st.grid → GridHF (analysisLoop w hm st).grid) := by
  constructor
  · intro row hrow c hc
    obtain ⟨x', z', rfl⟩ := classifyGrid_mem sl SX SZ 0 g row c hrow hc
    exact classifyCell_excl sl SX SZ x' z'
  · intro st h
    exact analysisLoop_GridHF w hm st h

/-- Closed instance for the amended C1 on an empty grid state. -/
theorem C1_amended_mutual_exclusivity_witness :
    ¬("harsh" ∈ (gridGet (analysisLoop cexWorld (fun _ _ => 5)
        { grid := [], to_avoid := [], waterways := [],
          waterbody_info := [], crashed := false }).grid 0 0).designations ∧
      "flat" ∈ (gridGet (analysisLoop cexWorld (fun _ _ => 5)
        { grid := [], to_avoid := [], waterways := [],
          waterbody_info := [], crashed := false }).grid 0 0).designations) :=
  (C1_amended_mutual_exclusivity cexSlice 0 0 [] cexWorld
    (fun _ _ => 5)).2
    { grid := [], to_avoid := [], waterways := [], waterbody_info := [],
      crashed := false }
    (fun x z => by simp [GridHF, gridGet, chunk_info_template]) 0 0

/-- C3: across the whole analysis pass, a coordinate once owned in
`waterways` keeps its owner (ownership is never reassigned); when a
later flood-fill's claiming loop runs over a region containing an
already-owned coordinate and the body's record exists, the owning
identifier ends up in the new body's `connections`; and the connections
lists of all records stay duplicate-free. -/
theorem C3_waterways_claim_once (w : World) (hm : Nat → Nat → Int)
    (cx cz : Nat) (name b : String) :
    (∀ (st : AState) (c : P3), alookup st.waterways c = some b →
      alookup (analysisLoop w hm st).waterways c = some b) ∧
    (∀ (region : List P3) (st : AState) (c : P3),
      c ∈ region → alookup st.waterways c = some b →
      (alookup st.waterbody_info name).isSome = true →
      (region.foldl (claimStep cx cz name) st).crashed = false →
      ∃ r, alookup
        (region.foldl (claimStep cx cz name) st).waterbody_info name =
        some r ∧ b ∈ r.connections) ∧
    (∀ st : AState, InvND st → InvND (analysisLoop w hm st)) := by
  refine ⟨?_, ?_, ?_⟩
  · intro st c h
    exact analysisLoop_waterways_pres w hm st c b h
  · intro region st c hc hown hsome hncr
    exact foldClaim_records_connection cx cz name b region st c hc hown
      hsome hncr
  · intro st h
    exact analysisLoop_ND w hm st h

/-- A small state owning `(0,0,0)` under body `x`, for the C3 witness. -/
def cexSt1 : AState where
  grid := []
  to_avoid := []
  waterways := [((0, 0, 0), "x")]
  waterbody_info := []
  crashed := false

/-- A state with one owned coordinate and an existing record `n`, for
the C3 witness. -/
def cexSt2 : AState where
  grid := []
  to_avoid := []
  waterways := [((1, 2, 3), "x")]
  waterbody_info := [("n", freshWB)]
  crashed := false

/-- Closed instance for C3. -/
theorem C3_waterways_claim_once_witness :
    alookup (analysisLoop cexWorld (fun _ _ => 5) cexSt1).waterways
      (0, 0, 0) = some "x" ∧
    (∃ r, alookup
      (([((1 : Int), (2 : Int), (3 : Int))].foldl (claimStep 0 0 "n")
        cexSt2)).waterbody_info "n" = some r ∧ "x" ∈ r.connections) :=
  ⟨(C3_waterways_claim_once cexWorld (fun _ _ => 5) 0 0 "n" "x").1 cexSt1
      (0, 0, 0) (by decide),
    (C3_waterways_claim_once cexWorld (fun _ _ => 5) 0 0 "n" "x").2.1
      [(1, 2, 3)] cexSt2 (1, 2, 3) (by decide) (by decide) (by decide)
      (by decide)⟩

/-- C4: the body-naming branch.  A primary biome with the five-character
suffix `ocean` names the body `ocean-{cx}-{cz}`; otherwise exactly
`river` names it `river-{cx}-{cz}`; otherwise the prefix `swamp` names
it `swamp-{cx}-{cz}`; otherwise a region of size < 256 gives
`pond-{cx}-{cz}` and size ≥ 256 gives `lake-{cx}-{cz}`.  In particular
an `ocean`-suffixed biome at chunk `(3, 5)` yields exactly `ocean-3-5`,
and a non-named-biome region of size 10 resp. 300 yields the pond resp.
lake name. -/
theorem C4_body_naming (pb : String) (cx cz size : Nat) :
    (pyTail 5 pb = "ocean" →
      bodyName pb cx cz size = "ocean-" ++ Nat.repr cx ++ "-" ++ Nat.repr cz) ∧
    (pyTail 5 pb ≠ "ocean" → pb = "river" →
      bodyName pb cx cz size = "river-" ++ Nat.repr cx ++ "-" ++ Nat.repr cz) ∧
    (pyTail 5 pb ≠ "ocean" → pb ≠ "river" → pyTake 5 pb = "swamp" →
      bodyName pb cx cz size = "swamp-" ++ Nat.repr cx ++ "-" ++ Nat.repr cz) ∧
    (pyTail 5 pb ≠ "ocean" → pb ≠ "river" → pyTake 5 pb ≠ "swamp" →
      size < 256 →
      bodyName pb cx cz size = "pond-" ++ Nat.repr cx ++ "-" ++ Nat.repr cz) ∧
    (pyTail 5 pb ≠ "ocean" → pb ≠ "river" → pyTake 5 pb ≠ "swamp" →
      ¬ size < 256 →
      bodyName pb cx cz size = "lake-" ++ Nat.repr cx ++ "-" ++ Nat.repr cz) ∧
    bodyName "frozen_ocean" 3 5 size = "ocean-3-5" ∧
    bodyName "plains" cx cz 10 = "pond-" ++ Nat.repr cx ++ "-" ++ Nat.repr cz ∧
    bodyName "plains" cx cz 300 = "lake-" ++ Nat.repr cx ++ "-" ++ Nat.repr cz := by
  refine ⟨?_, ?_, ?_, ?_, ?_, ?_, ?_, ?_⟩
  · intro h1
    simp [bodyName, h1]
  · intro h1 h2
    subst h2
    have h1' : pyTail 5 "river" = "ocean" ↔ False := by decide
    simp [bodyName, h1']
  · intro h1 h2 h3
    simp [bodyName, h1, h2, h3]
  · intro h1 h2 h3 h4
    simp [bodyName, h1, h2, h3, h4]
  · intro h1 h2 h3 h4
    simp [bodyName, h1, h2, h3, h4]
  · have h1 : pyTail 5 "frozen_ocean" = "ocean" := by decide
    simp only [bodyName, h1, if_pos]
    decide
  · have h1 : pyTail 5 "plains" = "ocean" ↔ False := by decide
    have h2 : "plains" = "river" ↔ False := by decide
    have h3 : pyTake 5 "plains" = "swamp" ↔ False := by decide
    simp [bodyName, h1, h2, h3]
  · have h1 : pyTail 5 "plains" = "ocean" ↔ False := by decide
    have h2 : "plains" = "river" ↔ False := by decide
    have h3 : pyTake 5 "plains" = "swamp" ↔ False := by decide
    simp [bodyName, h1, h2, h3]

/-- Closed instance for C4. -/
theorem C4_body_naming_witness :
    bodyName "deep_ocean" 3 5 7 = "ocean-3-5" ∧
    bodyName "river" 1 2 0 = "river-1-2" ∧
    bodyName "swampy" 0 1 9 = "swamp-0-1" :=
  ⟨((C4_body_naming "deep_ocean" 3 5 7).1 (by decide)).trans (by decide),
    ((C4_body_naming "river" 1 2 0).2.1 (by decide) rfl).trans (by decide),
    ((C4_body_naming "swampy" 0 1 9).2.2.1 (by decide) (by decide)
      (by decide)).trans (by decide)⟩

set_option maxRecDepth 400000 in
/-- C7 (code evaluated at the failing input): the water branch computes
the four diagonal neighbours' primary biomes only into the discarded
local `surrounding`, so after the detection in interior chunk `(1, 1)`
of the 3×3 river world the record's `biome_adjacent` is still empty even
though every diagonal neighbour's stored primary biome is `river`; and
with the same build area but the water body in the far-corner chunk
`(2, 2)`, the computation indexes `chunk_info[3]` — outside the grid
span — and the run aborts (`crashed`). -/
theorem C7_biome_adjacent_never_populated :
    (runAnalysis cexWorld cexSlice ["air"] 2).map (fun st =>
      ((alookup st.waterbody_info "river-1-1").map WBRecord.biome_adjacent,
        (gridGet st.grid 2 2).primary_biome)) =
      some (some [], "river") ∧
    (runAnalysis cexEdgeWorld cexSlice ["air"] 2).map
      (fun st => st.crashed) = some true := by
  constructor
  · decide
  · decide

set_option maxRecDepth 400000 in
/-- C8 (counterexample): on the 3×3 river world the two disjoint
single-cell water bodies at `(16, 5, 16)` and `(24, 5, 16)` — separate
flood-fill regions, as the two detector calls below show — are both
detected from sample points of the same chunk `(1, 1)` and both receive
the identifier `river-1-1`; the `waterbody_info` record for that
identifier is created twice (the second creation shadowing the first),
contradicting the claim. -/
theorem C8_counterexample_same_identifier :
    (runAnalysis cexWorld cexSlice ["air"] 2).map (fun st =>
      (alookup st.waterways (16, 5, 16), alookup st.waterways (24, 5, 16),
        st.waterbody_info.map Prod.fst)) =
      some (some "river-1-1", some "river-1-1",
        ["river-1-1", "river-1-1"]) ∧
    (flood_search_3D cexGB (16, 5, 16) ⟨15, 0, 15, 33, 255, 33⟩ ["water"]
      [] false).1 = [(16, 5, 16)] ∧
    (flood_search_3D cexGB (24, 5, 16) ⟨15, 0, 15, 33, 255, 33⟩ ["water"]
      [] false).1 = [(24, 5, 16)] := by
  refine ⟨?_, ?_, ?_⟩ <;> decide

/-- C8 (amended): the `waterbody_info` record of an identifier is
installed anew at every detection deriving it — a later record for the
same name shadows the earlier one — and the derived name does not
distinguish two detections of the same chunk in the same naming class
(same biome-derived class, or the same side of the pond/lake size
threshold), so two disjoint bodies detected in one chunk can share an
identifier. -/
theorem C8_amended_record_overwritten (pb : String) (cx cz s s' : Nat)
    (m : List (String × WBRecord)) (name : String) (fresh r0 : WBRecord) :
    ((s < 256 ↔ s' < 256) → bodyName pb cx cz s = bodyName pb cx cz s') ∧
    (alookup m name = some r0 →
      alookup ((name, fresh) :: m) name = some fresh) := by
  constructor
  · intro hiff
    unfold bodyName
    split_ifs <;> first | rfl | tauto
  · intro h
    simp [alookup]

/-- A record with an existing connection, shadowed in the C8 witness. -/
def oldWB : WBRecord where
  connections := ["old"]
  biomes_touching := []
  biome_adjacent := []

/-- Closed instance for the amended C8. -/
theorem C8_amended_record_overwritten_witness :
    bodyName "plains" 4 4 10 = bodyName "plains" 4 4 20 ∧
    alookup [("n", freshWB), ("n", oldWB)] "n" = some freshWB :=
  ⟨(C8_amended_record_overwritten "plains" 4 4 10 20 [] "n" freshWB
      freshWB).1 (by decide),
    (C8_amended_record_overwritten "plains" 4 4 10 20 [("n", oldWB)] "n"
      freshWB oldWB).2 (by decide)⟩
